import Mathlib

/-!
Verification of the WhisperBrain conversational session engine.

Shallow embedding of the Python services:
  app/services/memory_manager.py      (ConversationMemory)
  app/services/context_analyzer.py    (ContextAnalyzer)
  app/middleware/rate_limiter.py      (RateLimiter)
  app/models/session.py               (UserSession / SessionManager)
  app/services/reconnection_manager.py (ReconnectionManager)

Modelling conventions:
  * Python strings are `List Char`; `str.lower` is `List.map Char.toLower`,
    `a in b` (substring) is `strIn`, `str.strip` is `pyStrip`.
  * Python's `lst[-n:]` is `pyLastN n` (note: for `n = 0` Python returns the
    whole list, which `pyLastN` reproduces); `lst[:-4]` is `take (length - 4)`.
  * `datetime.now()` timestamps are modelled by a strictly increasing `Nat`
    clock carried in the memory state; ISO-string comparison of timestamps
    produced by one process is exactly their chronological (numeric) order,
    and since the clock is strictly monotone, deduplication by object
    identity (`id(msg)`) coincides with deduplication by timestamp.
  * `time.time()` timestamps of the rate limiter are `ℚ`.
  * Dictionaries are association lists with pairwise distinct keys.
-/

/-- `needle in hay` for Python strings (substring containment). -/
def strIn (needle : List Char) : List Char → Bool
  | [] => needle.isEmpty
  | c :: rest => needle.isPrefixOf (c :: rest) || strIn needle rest

/-- `str.lower()` (ASCII, as in the source's usage). -/
def toLowerStr (l : List Char) : List Char := l.map Char.toLower

/-- `str.strip()`: remove leading and trailing whitespace. -/
def pyStrip (l : List Char) : List Char :=
  ((l.dropWhile Char.isWhitespace).reverse.dropWhile Char.isWhitespace).reverse

/-- Python `lst[-n:]` for a nonnegative `n`.  For `n = 0` Python's `lst[-0:]`
is `lst[0:]`, i.e. the whole list. -/
def pyLastN (n : Nat) (l : List α) : List α :=
  if n = 0 then l else l.drop (l.length - n)

namespace ContextA

/-- A `{role, content}` message as consumed by `ContextAnalyzer`. -/
structure ChatMsg where
  role : List Char
  content : List Char
deriving DecidableEq, Repr

/-- `ContextAnalyzer.context_keywords` (constructor). -/
def contextKeywords : List (List Char) :=
  ["it", "that", "this", "them", "those", "these",
   "what about", "how about", "and", "also", "too",
   "previous", "earlier", "before", "mentioned", "said",
   "same", "similar", "like that", "as well",
   "follow up", "continue", "more", "else",
   "what else", "anything else", "other", "another"].map String.data

/-- The literal `reference_words` list of `needs_context`. -/
def referenceWords : List (List Char) :=
  [" it ", " that ", " this ", " them ", " those ", " these ",
   " they ", " its ", " their "].map String.data

/-- The `strong_references` list of `_references_previous`. -/
def strongReferences : List (List Char) :=
  [" it ", " that ", " this ", " them ", " those ", " these ", " they "].map String.data

/-- `follow_up_indicators` of `_is_follow_up`. -/
def followUpIndicators : List (List Char) :=
  ["what about", "how about", "and", "also", "too",
   "what else", "anything else", "more about", "tell me more",
   "continue", "go on", "keep going"].map String.data

/-- `common_words` of `_extract_topics` (history side). -/
def commonWordsHist : List (List Char) :=
  ["the", "a", "an", "is", "are", "was", "were", "be", "been",
   "have", "has", "had", "do", "does", "did", "will", "would",
   "can", "could", "should", "may", "might", "this", "that",
   "these", "those", "i", "you", "he", "she", "it", "we", "they"].map String.data

/-- `common_words` of `_extract_topics_from_text` (question side). -/
def commonWordsQ : List (List Char) :=
  ["the", "a", "an", "is", "are", "was", "were", "be", "been",
   "have", "has", "had", "do", "does", "did", "will", "would",
   "can", "could", "should", "may", "might", "this", "that",
   "these", "those", "i", "you", "he", "she", "it", "we", "they",
   "what", "where", "when", "who", "how", "why"].map String.data

/-- A regex word character (`\w`, ASCII). -/
def isWordChar (c : Char) : Bool :=
  ('a' ≤ c && c ≤ 'z') || ('A' ≤ c && c ≤ 'Z') || ('0' ≤ c && c ≤ '9') || c == '_'

/-- A lowercase ASCII letter (`[a-z]`). -/
def isLowerAZ (c : Char) : Bool := 'a' ≤ c && c ≤ 'z'

/-- Helper of `wordRuns`: `acc` is the current (reversed) run of word
characters; a non-word character flushes it. -/
def wordRunsAux : List Char → List Char → List (List Char)
  | [], acc => if acc.isEmpty then [] else [acc.reverse]
  | c :: cs, acc =>
    if isWordChar c then wordRunsAux cs (c :: acc)
    else if acc.isEmpty then wordRunsAux cs [] else acc.reverse :: wordRunsAux cs []

/-- Maximal runs of word characters, in order (`re`-style tokenisation). -/
def wordRuns (l : List Char) : List (List Char) := wordRunsAux l []

/-- `re.findall(r'\b[a-z]{4,}\b', text)`: the maximal word-character runs that
consist solely of lowercase letters and have length at least 4. -/
def findTopicWords (text : List Char) : List (List Char) :=
  (wordRuns text).filter (fun r => 4 ≤ r.length && r.all isLowerAZ)

/-- `ContextAnalyzer._extract_topics`. -/
def extractTopics (msgs : List ChatMsg) : List (List Char) :=
  msgs.foldl
    (fun topics msg =>
      let content := toLowerStr msg.content
      let significant := (findTopicWords content).filter
        (fun w => !(commonWordsHist.contains w))
      topics ++ significant.take 5)
    []

/-- `ContextAnalyzer._extract_topics_from_text`. -/
def extractTopicsFromText (text : List Char) : List (List Char) :=
  ((findTopicWords (toLowerStr text)).filter
    (fun w => !(commonWordsQ.contains w))).take 5

/-- `question.startswith(pre)`. -/
def startsWith (q pre : List Char) : Bool := pre.isPrefixOf q

/-- `re.match(r'^<pre>\s+', q)`: `q` starts with `pre` followed by at least
one whitespace character. -/
def matchesPattern (pre : List Char) (q : List Char) : Bool :=
  pre.isPrefixOf q &&
    (match q.drop pre.length with
     | c :: _ => c.isWhitespace
     | [] => false)

/-- The `standalone_patterns` of the constructor, as literal-prefix matchers
(each regex is a literal followed by `\s+`). -/
def standalonePatterns : List (List Char) :=
  ["what is", "what are", "who is", "where is", "when did",
   "how do", "tell me about", "explain", "define", "describe"].map String.data

/-- `ContextAnalyzer._is_standalone_question`. -/
def isStandaloneQuestion (q : List Char) : Bool :=
  standalonePatterns.any (fun p => matchesPattern p (toLowerStr q))

/-- `ContextAnalyzer._is_follow_up`. -/
def isFollowUp (q : List Char) : Bool :=
  followUpIndicators.any (fun ind => strIn ind q)

/-- `ContextAnalyzer._references_previous`.  Note the Python operator
precedence in the special case: `a or b and c` is `a or (b and c)`. -/
def referencesPrevious (q : List Char) (hist : List ChatMsg) : Bool :=
  let qpad := ' ' :: toLowerStr q ++ [' ']
  let hasStrong := strongReferences.any (fun r => strIn r qpad)
  let ql := toLowerStr q
  let hasStrong := hasStrong ||
    (startsWith ql ("what is it".data) ||
      (startsWith ql ("how do i".data) && strIn (" it".data) ql))
  if hasStrong then true
  else
    let hasRef := contextKeywords.any (fun k => strIn k q)
    if !hasRef then false
    else
      let recentTopics := extractTopics (hist.drop (hist.length - 4))
      let questionTopics := extractTopicsFromText q
      if !recentTopics.isEmpty && !questionTopics.isEmpty &&
          !(recentTopics.filter (fun t => questionTopics.contains t)).isEmpty then
        true
      else hasRef

/-- `ContextAnalyzer.needs_context`. -/
def needsContext (q : List Char) (hist : List ChatMsg) : Bool :=
  if hist.isEmpty then false
  else
    let ql := pyStrip (toLowerStr q)
    let qpad := ' ' :: ql ++ [' ']
    if referenceWords.any (fun r => strIn r qpad) then true
    else if isFollowUp ql then true
    else if referencesPrevious ql hist then true
    else if isStandaloneQuestion ql then false
    else false

/-- A fixed non-empty history used in concrete analyzer scenarios. -/
def hist5 : List ChatMsg := [⟨"user".data, "hello there friend".data⟩]

end ContextA

namespace RateL

/-- Configuration of `RateLimiter.__init__`. -/
structure RLConfig where
  requests_per_minute : Nat
  requests_per_hour : Nat
  requests_per_day : Nat
deriving DecidableEq, Repr

/-- The lazy 24-hour prune performed at the top of `is_allowed` for the
identifier's timestamp list. -/
def pruneHistory (hist : List ℤ) (now : ℤ) : List ℤ :=
  hist.filter (fun ts => decide (now - 86400 < ts))

/-- Number of retained timestamps inside the trailing 60-second window. -/
def minuteCount (hist : List ℤ) (now : ℤ) : Nat :=
  (hist.filter (fun ts => decide (now - 60 < ts))).length

/-- Number of retained timestamps inside the trailing 3600-second window. -/
def hourCount (hist : List ℤ) (now : ℤ) : Nat :=
  (hist.filter (fun ts => decide (now - 3600 < ts))).length

/-- Number of retained timestamps inside the trailing 86400-second window. -/
def dayCount (hist : List ℤ) (now : ℤ) : Nat :=
  (hist.filter (fun ts => decide (now - 86400 < ts))).length

/-- `RateLimiter.is_allowed` for one identifier: the state is that
identifier's timestamp list (the `defaultdict` treats identifiers
independently).  Returns `(allowed, reason, new timestamp list)`. -/
def isAllowed (cfg : RLConfig) (hist : List ℤ) (now : ℤ) :
    Bool × Option String × List ℤ :=
  let history := pruneHistory hist now
  let recentMinute := history.filter (fun ts => decide (now - 60 < ts))
  if cfg.requests_per_minute ≤ recentMinute.length then
    (false, some ("Rate limit exceeded: " ++ toString cfg.requests_per_minute ++
      " requests per minute"), history)
  else
    let recentHour := history.filter (fun ts => decide (now - 3600 < ts))
    if cfg.requests_per_hour ≤ recentHour.length then
      (false, some ("Rate limit exceeded: " ++ toString cfg.requests_per_hour ++
        " requests per hour"), history)
    else
      let recentDay := history.filter (fun ts => decide (now - 86400 < ts))
      if cfg.requests_per_day ≤ recentDay.length then
        (false, some ("Rate limit exceeded: " ++ toString cfg.requests_per_day ++
          " requests per day"), history)
      else
        (true, none, history ++ [now])

/-- The default minute/hour/day ceilings with `requests_per_minute = 2`. -/
def rlCfg2 : RLConfig := ⟨2, 100, 1000⟩

end RateL

namespace Sessions

/-- `UserSession` (models/session.py); identifiers and times abstracted to
`Nat`/`ℤ`. -/
structure UserSession where
  session_id : Nat
  user_id : Nat
  created_at : ℤ
  last_activity : ℤ
  conversation_count : Nat
  is_active : Bool
deriving DecidableEq, Repr

/-- `UserSession.deactivate`. -/
def deactivate (s : UserSession) : UserSession := { s with is_active := false }

/-- `SessionManager.remove_session`: when the id is present, the session is
deactivated and deleted from the dict; the deactivated record is returned as
the observable effect on the removed object. -/
def removeSession (ss : List (Nat × UserSession)) (sid : Nat) :
    List (Nat × UserSession) × Option UserSession :=
  match ss.find? (fun p => p.1 == sid) with
  | some p => (ss.filter (fun q => q.1 != sid), some (deactivate p.2))
  | none => (ss, none)

/-- One step of the cleanup loop: `remove_session` on the current registry,
accumulating the removed record. -/
def sweepStep (acc : List (Nat × UserSession) × List UserSession) (sid : Nat) :
    List (Nat × UserSession) × List UserSession :=
  let r := removeSession acc.1 sid
  (r.1, acc.2 ++ r.2.toList)

/-- `SessionManager.cleanup_inactive_sessions`: collect the ids whose
`last_activity` precedes `now - timeout`, then `remove_session` each.
Returns the final registry and the removed (deactivated) records. -/
def cleanupInactiveSessions (ss : List (Nat × UserSession)) (now timeout : ℤ) :
    List (Nat × UserSession) × List UserSession :=
  let cutoff := now - timeout
  let inactive :=
    (ss.filter (fun p => decide (p.2.last_activity < cutoff))).map (fun p => p.1)
  inactive.foldl sweepStep (ss, [])

end Sessions

namespace Reconn

/-- `ReconnectionManager` state: the user-preference values read by
`attempt_reconnect` (`connection.auto_reconnect`, `connection.max_retries`,
`connection.reconnect_delay`) together with the mutable attempt counter and
the single-flight flag. -/
structure ReconnState where
  auto_reconnect : Bool
  max_attempts : Nat
  base_delay : Nat
  reconnect_attempts : Nat
  is_reconnecting : Bool
deriving DecidableEq, Repr

/-- The retry loop of `attempt_reconnect` (`for attempt in range(1,
max_attempts + 1)`).  `k` is the number of remaining attempts and `attempt`
the 1-indexed attempt number; the action reports success (`true`) or raising
(`false`).  Returns `(succeeded, number of invocations, delays slept before
each invocation)`. -/
def reconnectLoop (action : Nat → Bool) (baseDelay : Nat) :
    Nat → Nat → Bool × Nat × List Nat
  | 0, _ => (false, 0, [])
  | k + 1, attempt =>
    let delay := baseDelay * 2 ^ (attempt - 1)
    if action attempt then (true, 1, [delay])
    else
      let r := reconnectLoop action baseDelay k (attempt + 1)
      (r.1, r.2.1 + 1, delay :: r.2.2)

/-- `ReconnectionManager.attempt_reconnect`.  Returns the result together
with the post-call state, the number of invocations of the reconnect action
and the list of sleeps performed (attempt `i` sleeps
`base_delay * 2 ^ (i - 1)` before invoking the action).  On success the
attempt counter is reset to 0; on every exit the single-flight flag is
cleared (as the source does at each return point inside the loop). -/
def attemptReconnect (st : ReconnState) (action : Nat → Bool) :
    Bool × ReconnState × Nat × List Nat :=
  if !st.auto_reconnect then (false, st, 0, [])
  else if st.is_reconnecting then (false, st, 0, [])
  else
    let r := reconnectLoop action st.base_delay st.max_attempts 1
    if r.1 then
      (true, { st with reconnect_attempts := 0, is_reconnecting := false },
        r.2.1, r.2.2)
    else
      (false, { st with is_reconnecting := false }, r.2.1, r.2.2)

end Reconn

namespace Memory

/-- A message dict of `ConversationMemory` (`role`, `content`, `timestamp`,
`tokens`, `important`, `is_summary`).  The timestamp is the value of the
strictly monotone clock at creation; it doubles as the object identity used
by the `id(msg)` deduplication. -/
structure MemMessage where
  role : List Char
  content : List Char
  timestamp : Nat
  tokens : Nat
  important : Bool
  is_summary : Bool
deriving DecidableEq, Repr

/-- Constructor arguments of `ConversationMemory.__init__`. -/
structure MemConfig where
  max_tokens : Nat
  max_messages : Nat
  summarize_threshold : Nat
  important_keywords : List (List Char)
deriving DecidableEq, Repr

/-- The default `important_keywords`. -/
def defaultKeywords : List (List Char) :=
  ["important", "remember", "note", "save", "key", "critical"].map String.data

/-- Full state of a `ConversationMemory` instance plus the model clock. -/
structure MemState where
  conf : MemConfig
  messages : List MemMessage
  total_tokens : Nat
  clock : Nat
deriving DecidableEq, Repr

/-- `ConversationMemory._estimate_tokens`: `len(text) // 4`. -/
def estimateTokens (text : List Char) : Nat := text.length / 4

/-- `ConversationMemory._is_important`: case-insensitive substring match
against the keyword set. -/
def isImportant (keywords : List (List Char)) (content : List Char) : Bool :=
  keywords.any (fun k => strIn k (toLowerStr content))

/-- `ConversationMemory._calculate_total_tokens`. -/
def tokSum (msgs : List MemMessage) : Nat := (msgs.map (fun m => m.tokens)).sum

/-- Python `str.capitalize()`: first character uppercased, rest lowercased. -/
def pyCapitalize : List Char → List Char
  | [] => []
  | c :: cs => Char.toUpper c :: cs.map Char.toLower

/-- The per-message digest inside `_create_summary` (role capitalized,
content truncated to 100 characters with an ellipsis). -/
def digestMsg (m : MemMessage) : List Char :=
  pyCapitalize m.role ++ (": ".data) ++
    (if 100 < m.content.length then m.content.take 100 ++ "...".data else m.content)

/-- `ConversationMemory._create_summary`: pipe-joined digests. -/
def createSummary (msgs : List MemMessage) : List Char :=
  List.intercalate (" | ".data) (msgs.map digestMsg)

/-- `ConversationMemory._summarize_old_messages`.  Note that the stored
token estimate of the summary message is computed from `summary_text`
alone, while its content carries the `Previous conversation summary: `
prefix, exactly as in the source. -/
def summarizeOldMessages (s : MemState) : MemState :=
  if s.messages.length ≤ 2 then s
  else
    let toSummarize := s.messages.take (s.messages.length - 4)
    let recent := s.messages.drop (s.messages.length - 4)
    if toSummarize.isEmpty then s
    else
      let summaryText := createSummary toSummarize
      let summaryMsg : MemMessage :=
        ⟨"system".data, "Previous conversation summary: ".data ++ summaryText,
          s.clock, estimateTokens summaryText, false, true⟩
      let msgs := summaryMsg :: recent
      { s with messages := msgs, total_tokens := tokSum msgs, clock := s.clock + 1 }

/-- The identity-based deduplication of `_compress_context`/`_trim_messages`
(`id(msg)` is modelled by the unique timestamp). -/
def dedupeAux : List MemMessage → List Nat → List MemMessage
  | [], _ => []
  | m :: rest, seen =>
    if m.timestamp ∈ seen then dedupeAux rest seen
    else m :: dedupeAux rest (m.timestamp :: seen)

/-- Deduplicate keeping first occurrences. -/
def dedupe (msgs : List MemMessage) : List MemMessage := dedupeAux msgs []

/-- Insertion into a timestamp-sorted list (used to model the stable
`sort(key=lambda x: x.get('timestamp', ''))`; timestamps are unique). -/
def insertByTs (m : MemMessage) : List MemMessage → List MemMessage
  | [] => [m]
  | x :: xs =>
    if m.timestamp ≤ x.timestamp then m :: x :: xs else x :: insertByTs m xs

/-- Sort by timestamp. -/
def sortByTs (msgs : List MemMessage) : List MemMessage :=
  msgs.foldr insertByTs []

/-- The `while` loop of `_compress_context`: drop the oldest element while
the total still exceeds `max_tokens` and more than 2 elements remain. -/
def popOldest (maxTokens : Nat) : List MemMessage → List MemMessage
  | [] => []
  | m :: rest =>
    if maxTokens < tokSum (m :: rest) && 2 < (m :: rest).length then
      popOldest maxTokens rest
    else m :: rest

/-- `ConversationMemory._compress_context`. -/
def compressContext (s : MemState) : MemState :=
  let important := s.messages.filter (fun m => m.important)
  let recent := s.messages.drop (s.messages.length - 4)
  let combined := dedupe (important ++ recent)
  let sorted := sortByTs combined
  let trimmed := popOldest s.conf.max_tokens sorted
  { s with messages := trimmed, total_tokens := tokSum trimmed }

/-- `ConversationMemory._trim_messages`.  Both `self.messages[-max:]` slices
go through `pyLastN`, reproducing Python's `[-0:]` behaviour. -/
def trimMessages (s : MemState) : MemState :=
  let important := s.messages.filter (fun m => m.important)
  let recent := pyLastN s.conf.max_messages s.messages
  let combined := dedupe (important ++ recent)
  let sorted := sortByTs combined
  let kept := pyLastN s.conf.max_messages sorted
  { s with messages := kept, total_tokens := tokSum kept }

/-- First check of `_manage_memory`: summarize when the threshold is
exceeded. -/
def summarizeStage (s : MemState) : MemState :=
  if s.conf.summarize_threshold < s.messages.length then summarizeOldMessages s else s

/-- Second check of `_manage_memory`: compress when over the token limit. -/
def compressStage (s : MemState) : MemState :=
  if s.conf.max_tokens < s.total_tokens then compressContext s else s

/-- Third check of `_manage_memory`: trim when over the message limit. -/
def trimStage (s : MemState) : MemState :=
  if s.conf.max_messages < s.messages.length then trimMessages s else s

/-- `ConversationMemory._manage_memory`: the three checks in source order,
each reading the state left by the previous one. -/
def manageMemory (s : MemState) : MemState :=
  trimStage (compressStage (summarizeStage s))

/-- `ConversationMemory.add_message`. -/
def addMessage (s : MemState) (role content : List Char) : MemState :=
  let m : MemMessage :=
    ⟨role, content, s.clock, estimateTokens content,
      isImportant s.conf.important_keywords content, false⟩
  manageMemory
    { s with messages := s.messages ++ [m],
             total_tokens := s.total_tokens + m.tokens,
             clock := s.clock + 1 }

/-- A freshly constructed `ConversationMemory`. -/
def initMem (conf : MemConfig) : MemState := ⟨conf, [], 0, 0⟩

/-- A sequence of `add_message` calls. -/
def runCalls (s : MemState) (calls : List (List Char × List Char)) : MemState :=
  calls.foldl (fun st c => addMessage st c.1 c.2) s

/-- The greedy most-recent-first selection of `get_context`, walking the
reversed message list with a running token count. -/
def selectFit (limit : Nat) : Nat → List MemMessage → List MemMessage
  | _, [] => []
  | tc, m :: rest =>
    if tc + m.tokens ≤ limit then m :: selectFit limit (tc + m.tokens) rest else []

/-- `ConversationMemory.get_context`.  `limit = max_tokens or
self.max_tokens`: a `None` *or zero* argument falls back to the configured
`max_tokens` (Python truthiness). -/
def getContext (s : MemState) (maxTokens : Option Nat) : List (List Char × List Char) :=
  let limit := match maxTokens with
    | none => s.conf.max_tokens
    | some n => if n = 0 then s.conf.max_tokens else n
  let selected := (selectFit limit 0 s.messages.reverse).reverse
  selected.map (fun m => (m.role, m.content))

/-- C1 witness configuration. -/
def c1conf : MemConfig := ⟨2000, 4, 15, defaultKeywords⟩

/-- C1 witness call sequence (six short turns). -/
def c1calls : List (List Char × List Char) :=
  [("user".data, "aaaa".data), ("assistant".data, "bbbb".data),
   ("user".data, "cccc".data), ("assistant".data, "dddd".data),
   ("user".data, "eeee".data), ("assistant".data, "ffff".data)]

/-- C2 witness scenario: five ~35-token messages against `max_tokens = 10`;
the old important message is popped while recent non-important ones stay. -/
def c2m1 : MemMessage := ⟨"user".data, "please remember the master key now".data, 0,
  ("please remember the master key now".data).length / 4,
  isImportant defaultKeywords ("please remember the master key now".data), false⟩

def c2m2 : MemMessage := ⟨"user".data, "what is the weather like in paris".data,
  1, 8, false, false⟩

def c2m3 : MemMessage := ⟨"assistant".data,
  "the weather is mild and cloudy today".data, 2, 9, false, false⟩

def c2m4 : MemMessage := ⟨"user".data,
  "how long does the flight take there".data, 3, 8, false, false⟩

def c2m5 : MemMessage := ⟨"assistant".data,
  "the flight takes about two hours total".data, 4, 9, false, false⟩

def c2state : MemState := ⟨⟨10, 10, 15, defaultKeywords⟩,
  [c2m1, c2m2, c2m3, c2m4, c2m5], tokSum [c2m1, c2m2, c2m3, c2m4, c2m5], 5⟩

/-- C6 witness state: three messages of 8, 9 and 8 tokens. -/
def c6state : MemState := ⟨⟨2000, 10, 15, defaultKeywords⟩,
  [⟨"user".data, "what is the weather like in paris".data, 0, 8, false, false⟩,
   ⟨"assistant".data, "the weather is mild and cloudy today".data, 1, 9, false, false⟩,
   ⟨"user".data, "how long does the flight take there".data, 2, 8, false, false⟩],
  25, 3⟩

end Memory

namespace ContextA

/-- C4 (counterexample). `needs_context` returns `false` for the question
`"Are they?"` against a non-empty history, although `they` occurs in it as a
whole word (delimited by a space and by `?`): the code only matches
space-delimited occurrences of the pronoun tokens, and no other branch of
the decision chain fires for this question. -/
theorem ca_C4_cex :
    needsContext ("Are they?".data) hist5 = false := by decide

/-- C4 (amended). With a non-empty history, a question containing one of the
nine pronoun/reference tokens *delimited by spaces* (in the space-padded,
lowercased, stripped question) makes `needs_context` return `true`; the
particular question `"How do I fix it?"` returns `true` for every non-empty
history (via the `how do i`/` it` special case); and with empty history
`needs_context` returns `false` for every question. -/
theorem ca_C4_amended (q q2 : List Char) (hist hist2 : List ChatMsg)
    (hne : hist ≠ []) (hne2 : hist2 ≠ [])
    (tok : List Char) (htok : tok ∈ referenceWords)
    (hsub : strIn tok (' ' :: pyStrip (toLowerStr q) ++ [' ']) = true) :
    needsContext q hist = true ∧
    needsContext ("How do I fix it?".data) hist2 = true ∧
    needsContext q2 [] = false := by
  refine ⟨?_, ?_, ?_⟩
  · cases hist with
    | nil => exact absurd rfl hne
    | cons a t =>
      simp only [needsContext]
      simp
      exact Or.inl ⟨tok, htok, hsub⟩
  · cases hist2 with
    | nil => exact absurd rfl hne2
    | cons a t => rfl
  · rfl

/-- C4 witness scenario for the amended theorem. -/
theorem ca_C4_witness :
    ((hist5 ≠ []) ∧ (" it ".data ∈ referenceWords) ∧
      strIn (" it ".data)
        (' ' :: pyStrip (toLowerStr "Is it broken".data) ++ [' ']) = true) ∧
    (needsContext ("Is it broken".data) hist5 = true ∧
      needsContext ("How do I fix it?".data) hist5 = true ∧
      needsContext ("Define recursion".data) [] = false) :=
  ⟨⟨by decide, by decide, by decide⟩,
    ca_C4_amended ("Is it broken".data) ("Define recursion".data) hist5 hist5
      (by decide) (by decide) (" it ".data) (by decide) (by decide)⟩

/-- C5 (counterexample). The question `"more?"` contains the generic context
keyword `more`, no space-delimited pronoun token and no follow-up phrase, and
its topic tokens do not intersect the history's topic tokens; the claim says
the decision should fall through to the standalone/default steps and return
`false`, but `_references_previous` returns its `has_reference` flag, so
`needs_context` returns `true`. -/
theorem ca_C5_cex :
    needsContext ("more?".data) hist5 = true ∧
    (extractTopics (hist5.drop (hist5.length - 4))).filter
      (fun t =>
        (extractTopicsFromText (pyStrip (toLowerStr "more?".data))).contains t) = [] ∧
    referenceWords.any
      (fun r => strIn r (' ' :: pyStrip (toLowerStr "more?".data) ++ [' '])) = false ∧
    isFollowUp (pyStrip (toLowerStr "more?".data)) = false := by
  refine ⟨by decide, by decide, by decide, by decide⟩

/-- C5 (amended). For a question with non-empty history that triggers neither
the space-delimited pronoun check, nor a follow-up phrase, nor the strong
reference/special-case prefixes, `needs_context` equals "the question contains
some generic context keyword as a substring": the topic-intersection check
only provides an early `true` exit and never changes the outcome, and when no
context keyword is present the decision falls through to the
standalone-pattern step and the default, both of which produce `false`. -/
theorem ca_C5_amended (q : List Char) (hist : List ChatMsg) (hne : hist ≠ [])
    (h1 : referenceWords.any
      (fun r => strIn r (' ' :: pyStrip (toLowerStr q) ++ [' '])) = false)
    (h2 : isFollowUp (pyStrip (toLowerStr q)) = false)
    (h3 : strongReferences.any
      (fun r => strIn r (' ' :: toLowerStr (pyStrip (toLowerStr q)) ++ [' '])) = false)
    (h4 : startsWith (toLowerStr (pyStrip (toLowerStr q))) ("what is it".data) = false)
    (h5 : (startsWith (toLowerStr (pyStrip (toLowerStr q))) ("how do i".data) &&
      strIn (" it".data) (toLowerStr (pyStrip (toLowerStr q)))) = false) :
    needsContext q hist =
      contextKeywords.any (fun k => strIn k (pyStrip (toLowerStr q))) := by
  cases hist with
  | nil => exact absurd rfl hne
  | cons a t =>
    have hrp : referencesPrevious (pyStrip (toLowerStr q)) (a :: t) =
        contextKeywords.any (fun k => strIn k (pyStrip (toLowerStr q))) := by
      simp only [referencesPrevious, h3, h4, h5, Bool.false_or, Bool.or_self,
        Bool.false_and, if_false]
      cases hR : contextKeywords.any (fun k => strIn k (pyStrip (toLowerStr q))) with
      | false => simp
      | true =>
        simp only [Bool.not_true, Bool.false_eq_true, if_false]
        split <;> rfl
    simp only [needsContext, List.isEmpty_cons, Bool.false_eq_true, if_false, h1, h2, hrp]
    cases hR : contextKeywords.any (fun k => strIn k (pyStrip (toLowerStr q))) with
    | false =>
      simp only [Bool.false_eq_true, if_false]
      split <;> rfl
    | true => simp

/-- C5 witness scenario for the amended theorem. -/
theorem ca_C5_witness :
    ((hist5 ≠ []) ∧
      referenceWords.any
        (fun r => strIn r (' ' :: pyStrip (toLowerStr "more?".data) ++ [' '])) = false ∧
      isFollowUp (pyStrip (toLowerStr "more?".data)) = false) ∧
    needsContext ("more?".data) hist5 =
      contextKeywords.any (fun k => strIn k (pyStrip (toLowerStr "more?".data))) :=
  ⟨⟨by decide, by decide, by decide⟩,
    ca_C5_amended ("more?".data) hist5 (by decide) (by decide) (by decide)
      (by decide) (by decide) (by decide)⟩

end ContextA

namespace RateL

theorem filter_pruneHistory (hist : List ℤ) (now w : ℤ) (hw : now - 86400 ≤ w) :
    (pruneHistory hist now).filter (fun ts => decide (w < ts)) =
      hist.filter (fun ts => decide (w < ts)) := by
  unfold pruneHistory
  rw [List.filter_filter]
  apply List.filter_congr
  intro ts _
  by_cases h : w < ts
  · have h2 : now - 86400 < ts := lt_of_le_of_lt hw h
    simp [h, h2]
  · simp [h]

theorem filter_all_lt (w : ℤ) (l : List ℤ) (h : ∀ x ∈ l, w < x) :
    l.filter (fun ts => decide (w < ts)) = l :=
  List.filter_eq_self.mpr (fun x hx => decide_eq_true (h x hx))

/-- `is_allowed` admits exactly when all three window counts are strictly
below their ceilings at the call's timestamp. -/
theorem isAllowed_true_iff (cfg : RLConfig) (hist : List ℤ) (now : ℤ) :
    (isAllowed cfg hist now).1 = true ↔
      (minuteCount hist now < cfg.requests_per_minute ∧
        hourCount hist now < cfg.requests_per_hour ∧
        dayCount hist now < cfg.requests_per_day) := by
  have hm := filter_pruneHistory hist now (now - 60) (by linarith)
  have hh := filter_pruneHistory hist now (now - 3600) (by linarith)
  have hd := filter_pruneHistory hist now (now - 86400) (le_refl _)
  simp only [isAllowed, hm, hh, hd, minuteCount, hourCount, dayCount]
  split_ifs with hc1 hc2 hc3 <;> simp <;> omega

/-- On an admitted call the new retained list is the pruned list with `now`
appended, in the same operation. -/
theorem isAllowed_true_append (cfg : RLConfig) (hist : List ℤ) (now : ℤ)
    (h : (isAllowed cfg hist now).1 = true) :
    (isAllowed cfg hist now).2.2 = pruneHistory hist now ++ [now] := by
  simp only [isAllowed] at h ⊢
  split_ifs at * <;> simp_all

/-- On a rejected call the new retained list is just the pruned list. -/
theorem isAllowed_false_prune (cfg : RLConfig) (hist : List ℤ) (now : ℤ)
    (h : (isAllowed cfg hist now).1 = false) :
    (isAllowed cfg hist now).2.2 = pruneHistory hist now := by
  simp only [isAllowed] at h ⊢
  split_ifs at * <;> simp_all

/-- A call rejected on the minute window returns the per-minute reason. -/
theorem isAllowed_minute_reject (cfg : RLConfig) (hist : List ℤ) (now : ℤ)
    (h : cfg.requests_per_minute ≤ minuteCount hist now) :
    isAllowed cfg hist now =
      (false, some ("Rate limit exceeded: " ++ toString cfg.requests_per_minute ++
        " requests per minute"), pruneHistory hist now) := by
  have hm := filter_pruneHistory hist now (now - 60) (by linarith)
  unfold minuteCount at h
  simp only [isAllowed, hm]
  rw [if_pos h]

/-- C3. With `requests_per_minute = 2` (hour/day at their defaults), three
calls at mutually close timestamps (within one second) starting from an empty
history are decided `true`, `true`, `false`, and the third call's reason
names the minute window; moreover, in general, a call is admitted iff all
three window ceilings are unviolated at the call's timestamp, and admission
appends the timestamp to the retained list in the same operation. -/
theorem rl_C3 (cfg : RLConfig) (hist : List ℤ) (now : ℤ) (t1 t2 t3 : ℤ)
    (h12 : t1 ≤ t2) (h23 : t2 ≤ t3) (h31 : t3 ≤ t1 + 1) :
    (isAllowed rlCfg2 [] t1).1 = true ∧
    (isAllowed rlCfg2 (isAllowed rlCfg2 [] t1).2.2 t2).1 = true ∧
    (isAllowed rlCfg2 (isAllowed rlCfg2 (isAllowed rlCfg2 [] t1).2.2 t2).2.2 t3).1 = false ∧
    (isAllowed rlCfg2 (isAllowed rlCfg2 (isAllowed rlCfg2 [] t1).2.2 t2).2.2 t3).2.1 =
      some "Rate limit exceeded: 2 requests per minute" ∧
    ((isAllowed cfg hist now).1 = true ↔
      (minuteCount hist now < cfg.requests_per_minute ∧
        hourCount hist now < cfg.requests_per_hour ∧
        dayCount hist now < cfg.requests_per_day)) ∧
    ((isAllowed cfg hist now).1 = true →
      (isAllowed cfg hist now).2.2 = pruneHistory hist now ++ [now]) := by
  have e1 : isAllowed rlCfg2 [] t1 = (true, none, [t1]) := by
    simp [isAllowed, pruneHistory, rlCfg2]
  have hp2 : pruneHistory [t1] t2 = [t1] :=
    filter_all_lt _ _ (by intro x hx; simp at hx; subst hx; linarith)
  have e2 : isAllowed rlCfg2 [t1] t2 = (true, none, [t1, t2]) := by
    have hm : minuteCount [t1] t2 = 1 := by
      unfold minuteCount
      rw [filter_all_lt _ _ (by intro x hx; simp at hx; subst hx; linarith)]
      rfl
    have hh : hourCount [t1] t2 = 1 := by
      unfold hourCount
      rw [filter_all_lt _ _ (by intro x hx; simp at hx; subst hx; linarith)]
      rfl
    have hd : dayCount [t1] t2 = 1 := by
      unfold dayCount
      rw [filter_all_lt _ _ (by intro x hx; simp at hx; subst hx; linarith)]
      rfl
    have hall : (isAllowed rlCfg2 [t1] t2).1 = true := by
      rw [isAllowed_true_iff]
      refine ⟨?_, ?_, ?_⟩ <;> simp [hm, hh, hd, rlCfg2]
    have happ := isAllowed_true_append rlCfg2 [t1] t2 hall
    rw [hp2] at happ
    have hr : (isAllowed rlCfg2 [t1] t2).2.1 = none := by
      simp only [isAllowed] at hall ⊢
      split_ifs at hall ⊢ <;> simp_all
    have hsplit : isAllowed rlCfg2 [t1] t2 =
        ((isAllowed rlCfg2 [t1] t2).1,
          (isAllowed rlCfg2 [t1] t2).2.1, (isAllowed rlCfg2 [t1] t2).2.2) := rfl
    rw [hsplit, hall, hr, happ]
    rfl
  have hm3 : minuteCount [t1, t2] t3 = 2 := by
    unfold minuteCount
    rw [filter_all_lt _ _ (by
      intro x hx
      simp at hx
      rcases hx with hx | hx <;> subst hx <;> linarith)]
    rfl
  have e3 := isAllowed_minute_reject rlCfg2 [t1, t2] t3 (by rw [hm3]; decide)
  refine ⟨by rw [e1], ?_, ?_, ?_, isAllowed_true_iff cfg hist now,
    isAllowed_true_append cfg hist now⟩
  · rw [e1]
    show (isAllowed rlCfg2 [t1] t2).1 = true
    rw [e2]
  · rw [e1]
    show (isAllowed rlCfg2 (isAllowed rlCfg2 [t1] t2).2.2 t3).1 = false
    rw [e2]
    show (isAllowed rlCfg2 [t1, t2] t3).1 = false
    rw [e3]
  · rw [e1]
    show (isAllowed rlCfg2 (isAllowed rlCfg2 [t1] t2).2.2 t3).2.1 =
      some "Rate limit exceeded: 2 requests per minute"
    rw [e2]
    show (isAllowed rlCfg2 [t1, t2] t3).2.1 =
      some "Rate limit exceeded: 2 requests per minute"
    rw [e3]
    rfl

/-- C3 witness scenario: timestamps `0, 0, 1` (within one second). -/
theorem rl_C3_witness :
    (isAllowed rlCfg2 [] 0).1 = true ∧
    (isAllowed rlCfg2 (isAllowed rlCfg2 [] 0).2.2 0).1 = true ∧
    (isAllowed rlCfg2 (isAllowed rlCfg2 (isAllowed rlCfg2 [] 0).2.2 0).2.2 1).1 = false ∧
    (isAllowed rlCfg2 (isAllowed rlCfg2 (isAllowed rlCfg2 [] 0).2.2 0).2.2 1).2.1 =
      some "Rate limit exceeded: 2 requests per minute" ∧
    ((isAllowed rlCfg2 [] 0).1 = true ↔
      (minuteCount [] 0 < rlCfg2.requests_per_minute ∧
        hourCount [] 0 < rlCfg2.requests_per_hour ∧
        dayCount [] 0 < rlCfg2.requests_per_day)) ∧
    ((isAllowed rlCfg2 [] 0).1 = true →
      (isAllowed rlCfg2 [] 0).2.2 = pruneHistory [] 0 ++ [0]) :=
  rl_C3 rlCfg2 [] 0 0 0 1 (by norm_num) (by norm_num) (by norm_num)

/-- C7. A call rejected by a window ceiling leaves the hour and day window
counts (at any later instant) exactly what they were before the call, and
once every retained timestamp is at least 60 seconds old while the hour/day
ceilings are unviolated, the next call is admitted again. -/
theorem rl_C7 (cfg : RLConfig) (hist₀ hist : List ℤ) (now₀ now now' : ℤ)
    (h0 : 0 < cfg.requests_per_minute)
    (hord : now₀ ≤ now')
    (hrej : (isAllowed cfg hist₀ now₀).1 = false)
    (hall : ∀ ts ∈ hist, ts ≤ now - 60)
    (hh : hourCount hist now < cfg.requests_per_hour)
    (hd : dayCount hist now < cfg.requests_per_day) :
    hourCount (isAllowed cfg hist₀ now₀).2.2 now' = hourCount hist₀ now' ∧
    dayCount (isAllowed cfg hist₀ now₀).2.2 now' = dayCount hist₀ now' ∧
    (isAllowed cfg hist now).1 = true := by
  have hpr := isAllowed_false_prune cfg hist₀ now₀ hrej
  refine ⟨?_, ?_, ?_⟩
  · rw [hpr]
    unfold hourCount
    exact congrArg List.length
      (filter_pruneHistory hist₀ now₀ (now' - 3600) (by linarith))
  · rw [hpr]
    unfold dayCount
    exact congrArg List.length
      (filter_pruneHistory hist₀ now₀ (now' - 86400) (by linarith))
  · rw [isAllowed_true_iff]
    have hnil : minuteCount hist now = 0 := by
      unfold minuteCount
      have he : hist.filter (fun ts => decide (now - 60 < ts)) = [] := by
        apply List.filter_eq_nil_iff.mpr
        intro a ha
        simp only [decide_eq_true_eq, not_lt]
        exact hall a ha
      rw [he]
      rfl
    exact ⟨by rw [hnil]; exact h0, hh, hd⟩

/-- C7 witness scenario: two requests at time `0` exhaust the 2/minute
ceiling; the rejected third call at time `0` does not disturb the hour/day
counts, and at time `61` a call is admitted again. -/
theorem rl_C7_witness :
    hourCount (isAllowed rlCfg2 [0, 0] 0).2.2 61 = hourCount [0, 0] 61 ∧
    dayCount (isAllowed rlCfg2 [0, 0] 0).2.2 61 = dayCount [0, 0] 61 ∧
    (isAllowed rlCfg2 [0, 1] 61).1 = true :=
  rl_C7 rlCfg2 [0, 0] [0, 1] 0 61 61 (by decide) (by norm_num) (by decide)
    (by decide) (by decide) (by decide)

end RateL

namespace Sessions

theorem find_key_unique (ss : List (Nat × UserSession)) (q : Nat × UserSession)
    (hnd : (ss.map (fun p => p.1)).Nodup) (hq : q ∈ ss) :
    ss.find? (fun p => p.1 == q.1) = some q := by
  induction ss with
  | nil => cases hq
  | cons r t ih =>
    rcases List.mem_cons.mp hq with h | h
    · subst h
      simp [List.find?]
    · have hr : (r.1 == q.1) = false := by
        apply beq_eq_false_iff_ne.mpr
        intro he
        have hmem : q.1 ∈ t.map (fun p => p.1) := List.mem_map_of_mem _ h
        rw [← he] at hmem
        exact (List.nodup_cons.mp hnd).1 hmem
      rw [List.find?_cons, hr]
      exact ih (List.nodup_cons.mp hnd).2 h

theorem fold_remove (sids : List Nat) :
    ∀ (ss : List (Nat × UserSession)) (acc : List UserSession),
    (ss.map (fun p => p.1)).Nodup → sids.Nodup →
    (∀ sid ∈ sids, sid ∈ ss.map (fun p => p.1)) →
    sids.foldl sweepStep (ss, acc) =
    (ss.filter (fun p => !sids.contains p.1),
      acc ++ sids.filterMap
        (fun sid => (ss.find? (fun p => p.1 == sid)).map (fun p => deactivate p.2))) := by
  induction sids with
  | nil =>
    intro ss acc _ _ _
    simp
  | cons sid rest ih =>
    intro ss acc hnd hsids hpres
    obtain ⟨q, hq, hqk⟩ : ∃ q ∈ ss, q.1 = sid := by
      rcases List.mem_map.mp (hpres sid (List.mem_cons_self sid rest)) with ⟨q, hq, hk⟩
      exact ⟨q, hq, hk⟩
    have hfind : ss.find? (fun p => p.1 == sid) = some q := by
      have h0 := find_key_unique ss q hnd hq
      rw [hqk] at h0
      exact h0
    have hstep : removeSession ss sid =
        (ss.filter (fun p => p.1 != sid), some (deactivate q.2)) := by
      unfold removeSession
      rw [hfind]
    have hnd' : ((ss.filter (fun p => p.1 != sid)).map (fun p => p.1)).Nodup :=
      ((List.filter_sublist ss).map (fun p => p.1)).nodup hnd
    have hrest : rest.Nodup := (List.nodup_cons.mp hsids).2
    have hnotin : sid ∉ rest := (List.nodup_cons.mp hsids).1
    have hpres' : ∀ s ∈ rest, s ∈ (ss.filter (fun p => p.1 != sid)).map (fun p => p.1) := by
      intro s hs
      have hsne : s ≠ sid := fun he => hnotin (he ▸ hs)
      rcases List.mem_map.mp (hpres s (List.mem_cons_of_mem sid hs)) with ⟨q', hq', hk'⟩
      refine List.mem_map.mpr ⟨q', List.mem_filter.mpr ⟨hq', ?_⟩, hk'⟩
      rw [hk']
      exact bne_iff_ne.mpr hsne
    have hstep2 : sweepStep (ss, acc) sid =
        (ss.filter (fun p => p.1 != sid), acc ++ [deactivate q.2]) := by
      simp [sweepStep, hstep]
    rw [List.foldl_cons, hstep2, ih _ _ hnd' hrest hpres']
    have hcomp1 : (ss.filter (fun p => p.1 != sid)).filter (fun p => !rest.contains p.1) =
        ss.filter (fun p => !((sid :: rest).contains p.1)) := by
      rw [List.filter_filter]
      apply List.filter_congr
      intro a _
      by_cases h1 : a.1 = sid
      · simp [h1]
      · by_cases h2 : rest.contains a.1 = true <;> simp [h1, h2]
    have hcomp2 : ∀ s ∈ rest,
        ((ss.filter (fun p => p.1 != sid)).find? (fun p => p.1 == s)).map
          (fun p => deactivate p.2) =
        (ss.find? (fun p => p.1 == s)).map (fun p => deactivate p.2) := by
      intro s hs
      rcases List.mem_map.mp (hpres' s hs) with ⟨q', hq', hk'⟩
      have hq'ss : q' ∈ ss := (List.mem_filter.mp hq').1
      have e1 : (ss.filter (fun p => p.1 != sid)).find? (fun p => p.1 == s) = some q' := by
        have h0 := find_key_unique _ q' hnd' hq'
        rw [hk'] at h0
        exact h0
      have e2 : ss.find? (fun p => p.1 == s) = some q' := by
        have h0 := find_key_unique ss q' hnd hq'ss
        rw [hk'] at h0
        exact h0
      rw [e1, e2]
    have hsome : (ss.find? (fun p => p.1 == sid)).map (fun p => deactivate p.2) =
        some (deactivate q.2) := by
      rw [hfind]
      rfl
    rw [List.filterMap_congr hcomp2, hcomp1]
    simp only [List.filterMap_cons, hsome]
    simp

theorem key_inj (ss : List (Nat × UserSession))
    (hnd : (ss.map (fun p => p.1)).Nodup) (p q : Nat × UserSession)
    (hp : p ∈ ss) (hq : q ∈ ss) (hk : p.1 = q.1) : p = q := by
  have h1 := find_key_unique ss p hnd hp
  have h2 := find_key_unique ss q hnd hq
  rw [hk] at h1
  rw [h1] at h2
  exact Option.some_inj.mp h2

/-- C8.  On a registry with distinct session ids, the idle sweep removes
exactly the sessions whose `last_activity` precedes `now - timeout` (each
removed record being marked inactive on the way out), and every other
session's record is kept unchanged. -/
theorem sess_C8 (ss : List (Nat × UserSession)) (now timeout : ℤ)
    (hnd : (ss.map (fun p => p.1)).Nodup) :
    (cleanupInactiveSessions ss now timeout).1 =
      ss.filter (fun p => !decide (p.2.last_activity < now - timeout)) ∧
    (cleanupInactiveSessions ss now timeout).2 =
      (ss.filter (fun p => decide (p.2.last_activity < now - timeout))).map
        (fun p => deactivate p.2) := by
  have hsub : (ss.filter
      (fun p => decide (p.2.last_activity < now - timeout))).Sublist ss :=
    List.filter_sublist ss
  have hsids_nd : ((ss.filter
      (fun p => decide (p.2.last_activity < now - timeout))).map
        (fun p => p.1)).Nodup :=
    (hsub.map (fun p => p.1)).nodup hnd
  have hpres : ∀ sid ∈ (ss.filter
      (fun p => decide (p.2.last_activity < now - timeout))).map (fun p => p.1),
      sid ∈ ss.map (fun p => p.1) := by
    intro sid hs
    rcases List.mem_map.mp hs with ⟨q, hq, hk⟩
    exact List.mem_map.mpr ⟨q, (List.mem_filter.mp hq).1, hk⟩
  have hfold := fold_remove
    ((ss.filter (fun p => decide (p.2.last_activity < now - timeout))).map
      (fun p => p.1)) ss [] hnd hsids_nd hpres
  constructor
  · show ((((ss.filter (fun p => decide (p.2.last_activity < now - timeout))).map
      (fun p => p.1))).foldl sweepStep (ss, [])).1 = _
    rw [hfold]
    apply List.filter_congr
    intro p hp
    by_cases hm : p.1 ∈ (ss.filter
        (fun p => decide (p.2.last_activity < now - timeout))).map (fun p => p.1)
    · rcases List.mem_map.mp hm with ⟨q, hq, hk⟩
      have hqp : q = p := key_inj ss hnd q p (List.mem_filter.mp hq).1 hp hk
      subst hqp
      have hP : decide (q.2.last_activity < now - timeout) = true :=
        (List.mem_filter.mp hq).2
      simp [hm, hP]
    · have hP : decide (p.2.last_activity < now - timeout) = false := by
        by_contra hc
        have hPt : decide (p.2.last_activity < now - timeout) = true := by
          cases h : decide (p.2.last_activity < now - timeout)
          · exact absurd h hc
          · rfl
        exact hm (List.mem_map.mpr ⟨p, List.mem_filter.mpr ⟨hp, hPt⟩, rfl⟩)
      simp [hm, hP]
  · show ((((ss.filter (fun p => decide (p.2.last_activity < now - timeout))).map
      (fun p => p.1))).foldl sweepStep (ss, [])).2 = _
    rw [hfold]
    have h2 : ∀ q ∈ ss.filter (fun p => decide (p.2.last_activity < now - timeout)),
        ((fun s => (ss.find? (fun p => p.1 == s)).map (fun p => deactivate p.2)) ∘
          (fun p => p.1)) q = (some ∘ (fun p => deactivate p.2)) q := by
      intro q hq
      have hf : ss.find? (fun p => p.1 == q.1) = some q :=
        find_key_unique ss q hnd (List.mem_filter.mp hq).1
      simp [Function.comp, hf]
    rw [List.filterMap_map, List.filterMap_congr h2, List.filterMap_eq_map]
    simp

/-- C8 witness: a three-session registry with mixed ages; the sweep at time
`100` with timeout `30` removes the two stale sessions and keeps the fresh
one untouched. -/
theorem sess_C8_witness :
    ((([((1 : Nat), UserSession.mk 1 1 0 0 0 true),
        (2, UserSession.mk 2 2 0 95 3 true),
        (3, UserSession.mk 3 3 0 10 1 true)].map (fun p => p.1)).Nodup) ∧
      (cleanupInactiveSessions
        [((1 : Nat), UserSession.mk 1 1 0 0 0 true),
          (2, UserSession.mk 2 2 0 95 3 true),
          (3, UserSession.mk 3 3 0 10 1 true)] 100 30).1 =
        [((1 : Nat), UserSession.mk 1 1 0 0 0 true),
          (2, UserSession.mk 2 2 0 95 3 true),
          (3, UserSession.mk 3 3 0 10 1 true)].filter
          (fun p => !decide (p.2.last_activity < 100 - 30)) ∧
      (cleanupInactiveSessions
        [((1 : Nat), UserSession.mk 1 1 0 0 0 true),
          (2, UserSession.mk 2 2 0 95 3 true),
          (3, UserSession.mk 3 3 0 10 1 true)] 100 30).2 =
        ([((1 : Nat), UserSession.mk 1 1 0 0 0 true),
          (2, UserSession.mk 2 2 0 95 3 true),
          (3, UserSession.mk 3 3 0 10 1 true)].filter
          (fun p => decide (p.2.last_activity < 100 - 30))).map
          (fun p => deactivate p.2)) :=
  ⟨by decide,
    sess_C8
      [((1 : Nat), UserSession.mk 1 1 0 0 0 true),
        (2, UserSession.mk 2 2 0 95 3 true),
        (3, UserSession.mk 3 3 0 10 1 true)] 100 30 (by decide)⟩

end Sessions

namespace Reconn

/-- C9.  With `max_attempts = 3`, `base_delay = 1`, auto-reconnect on and no
reconnection in flight: an always-failing action is invoked exactly 3 times
with sleeps `[1, 2, 4]` and the call fails; an action failing once then
succeeding is invoked exactly 2 times with sleeps `[1, 2]`, the call
succeeds, and the attempt counter is 0 afterwards. -/
theorem reconn_C9 (st : ReconnState) (a1 a2 : Nat → Bool)
    (hauto : st.auto_reconnect = true) (hflight : st.is_reconnecting = false)
    (hmax : st.max_attempts = 3) (hbase : st.base_delay = 1)
    (ha1 : ∀ i, a1 i = false)
    (ha2f : a2 1 = false) (ha2s : ∀ i, 2 ≤ i → a2 i = true) :
    (attemptReconnect st a1).1 = false ∧
    (attemptReconnect st a1).2.2.1 = 3 ∧
    (attemptReconnect st a1).2.2.2 = [1, 2, 4] ∧
    (attemptReconnect st a2).1 = true ∧
    (attemptReconnect st a2).2.2.1 = 2 ∧
    (attemptReconnect st a2).2.2.2 = [1, 2] ∧
    (attemptReconnect st a2).2.1.reconnect_attempts = 0 := by
  have hl1 : reconnectLoop a1 1 3 1 = (false, 3, [1, 2, 4]) := by
    simp [reconnectLoop, ha1 1, ha1 2, ha1 3]
  have hl2 : reconnectLoop a2 1 3 1 = (true, 2, [1, 2]) := by
    simp [reconnectLoop, ha2f, ha2s 2 (by norm_num)]
  have e1 : attemptReconnect st a1 =
      (false, { st with is_reconnecting := false }, 3, [1, 2, 4]) := by
    simp only [attemptReconnect, hauto, hflight, hmax, hbase, hl1]
    rfl
  have e2 : attemptReconnect st a2 =
      (true, { st with reconnect_attempts := 0, is_reconnecting := false },
        2, [1, 2]) := by
    simp only [attemptReconnect, hauto, hflight, hmax, hbase, hl2]
    rfl
  rw [e1, e2]
  exact ⟨rfl, rfl, rfl, rfl, rfl, rfl, rfl⟩

/-- C9 witness: an always-failing action and an action succeeding from the
second attempt on, from a fresh supervisor state. -/
theorem reconn_C9_witness :
    (attemptReconnect ⟨true, 3, 1, 0, false⟩ (fun _ => false)).1 = false ∧
    (attemptReconnect ⟨true, 3, 1, 0, false⟩ (fun _ => false)).2.2.1 = 3 ∧
    (attemptReconnect ⟨true, 3, 1, 0, false⟩ (fun _ => false)).2.2.2 = [1, 2, 4] ∧
    (attemptReconnect ⟨true, 3, 1, 0, false⟩ (fun i => decide (2 ≤ i))).1 = true ∧
    (attemptReconnect ⟨true, 3, 1, 0, false⟩ (fun i => decide (2 ≤ i))).2.2.1 = 2 ∧
    (attemptReconnect ⟨true, 3, 1, 0, false⟩ (fun i => decide (2 ≤ i))).2.2.2 = [1, 2] ∧
    (attemptReconnect ⟨true, 3, 1, 0, false⟩
      (fun i => decide (2 ≤ i))).2.1.reconnect_attempts = 0 :=
  reconn_C9 ⟨true, 3, 1, 0, false⟩ (fun _ => false) (fun i => decide (2 ≤ i))
    rfl rfl rfl rfl (fun _ => rfl) (by decide) (fun i h => decide_eq_true h)

/-- C10.  When the `connection.auto_reconnect` preference is off,
`attempt_reconnect` returns failure immediately: the supplied action is
invoked zero times, no delay is slept, and the state is untouched,
regardless of `max_attempts`. -/
theorem reconn_C10 (st : ReconnState) (action : Nat → Bool)
    (h : st.auto_reconnect = false) :
    attemptReconnect st action = (false, st, 0, []) := by
  simp [attemptReconnect, h]

/-- C10 witness: auto-reconnect disabled with an action that would succeed
immediately. -/
theorem reconn_C10_witness :
    attemptReconnect ⟨false, 5, 3, 0, false⟩ (fun _ => true) = 
      (false, ⟨false, 5, 3, 0, false⟩, 0, []) :=
  reconn_C10 ⟨false, 5, 3, 0, false⟩ (fun _ => true) rfl

end Reconn

namespace Memory

theorem tokSum_nil : tokSum [] = 0 := rfl

theorem tokSum_cons (m : MemMessage) (l : List MemMessage) :
    tokSum (m :: l) = m.tokens + tokSum l := by
  simp [tokSum]

theorem tokSum_append_singleton (l : List MemMessage) (m : MemMessage) :
    tokSum (l ++ [m]) = tokSum l + m.tokens := by
  simp [tokSum]

theorem summarizeOldMessages_conf (s : MemState) :
    (summarizeOldMessages s).conf = s.conf := by
  simp only [summarizeOldMessages]
  split
  · rfl
  · split
    · rfl
    · rfl

theorem summarizeStage_conf (s : MemState) : (summarizeStage s).conf = s.conf := by
  unfold summarizeStage
  split
  · exact summarizeOldMessages_conf s
  · rfl

theorem compressStage_conf (s : MemState) : (compressStage s).conf = s.conf := by
  unfold compressStage
  split
  · rfl
  · rfl

theorem trimStage_conf (s : MemState) : (trimStage s).conf = s.conf := by
  unfold trimStage
  split
  · rfl
  · rfl

theorem manageMemory_conf (s : MemState) : (manageMemory s).conf = s.conf := by
  unfold manageMemory
  rw [trimStage_conf, compressStage_conf, summarizeStage_conf]

theorem addMessage_conf (s : MemState) (role content : List Char) :
    (addMessage s role content).conf = s.conf := by
  unfold addMessage
  rw [manageMemory_conf]

theorem summarizeStage_tok (s : MemState) (h : s.total_tokens = tokSum s.messages) :
    (summarizeStage s).total_tokens = tokSum (summarizeStage s).messages := by
  unfold summarizeStage
  split
  · simp only [summarizeOldMessages]
    split
    · exact h
    · split
      · exact h
      · rfl
  · exact h

theorem compressStage_tok (s : MemState) (h : s.total_tokens = tokSum s.messages) :
    (compressStage s).total_tokens = tokSum (compressStage s).messages := by
  unfold compressStage
  split
  · rfl
  · exact h

theorem trimStage_tok (s : MemState) (h : s.total_tokens = tokSum s.messages) :
    (trimStage s).total_tokens = tokSum (trimStage s).messages := by
  unfold trimStage
  split
  · rfl
  · exact h

theorem manageMemory_tok (s : MemState) (h : s.total_tokens = tokSum s.messages) :
    (manageMemory s).total_tokens = tokSum (manageMemory s).messages := by
  unfold manageMemory
  exact trimStage_tok _ (compressStage_tok _ (summarizeStage_tok _ h))

theorem pyLastN_length_le (n : Nat) (l : List MemMessage) (h : 1 ≤ n) :
    (pyLastN n l).length ≤ n := by
  unfold pyLastN
  rw [if_neg (by omega)]
  rw [List.length_drop]
  omega

theorem trimStage_len (s : MemState) (h : 1 ≤ s.conf.max_messages) :
    (trimStage s).messages.length ≤ s.conf.max_messages := by
  unfold trimStage
  split
  · show (trimMessages s).messages.length ≤ _
    simp only [trimMessages]
    exact pyLastN_length_le _ _ h
  · omega

theorem manageMemory_len (s : MemState) (h : 1 ≤ s.conf.max_messages) :
    (manageMemory s).messages.length ≤ s.conf.max_messages := by
  unfold manageMemory
  have hconf : (compressStage (summarizeStage s)).conf = s.conf := by
    rw [compressStage_conf, summarizeStage_conf]
  have := trimStage_len (compressStage (summarizeStage s)) (by rw [hconf]; exact h)
  rw [hconf] at this
  exact this

theorem addMessage_tok (s : MemState) (role content : List Char)
    (h : s.total_tokens = tokSum s.messages) :
    (addMessage s role content).total_tokens =
      tokSum (addMessage s role content).messages := by
  unfold addMessage
  apply manageMemory_tok
  show s.total_tokens + _ = tokSum (s.messages ++ [_])
  rw [tokSum_append_singleton, h]

theorem addMessage_len (s : MemState) (role content : List Char)
    (h : 1 ≤ s.conf.max_messages) :
    (addMessage s role content).messages.length ≤ s.conf.max_messages := by
  unfold addMessage
  exact manageMemory_len _ h

theorem runCalls_inv (conf : MemConfig) (h1 : 1 ≤ conf.max_messages)
    (calls : List (List Char × List Char)) :
    ∀ s : MemState, s.conf = conf → s.total_tokens = tokSum s.messages →
      s.messages.length ≤ conf.max_messages →
      (runCalls s calls).conf = conf ∧
      (runCalls s calls).total_tokens = tokSum (runCalls s calls).messages ∧
      (runCalls s calls).messages.length ≤ conf.max_messages := by
  induction calls with
  | nil => exact fun s hc ht hl => ⟨hc, ht, hl⟩
  | cons c rest ih =>
    intro s hc ht hl
    show (runCalls (addMessage s c.1 c.2) rest).conf = conf ∧ _
    apply ih
    · rw [addMessage_conf]
      exact hc
    · exact addMessage_tok s c.1 c.2 ht
    · have := addMessage_len s c.1 c.2 (by rw [hc]; exact h1)
      rw [hc] at this
      exact this

/-- C1 (amended).  For every configuration with `max_messages ≥ 1` and every
sequence of `add_message` calls from a fresh memory, after each call the
reported running token total equals the sum of the stored per-turn token
estimates of the retained turns, and the number of retained turns is at most
`max_messages`.  (Every prefix of a call sequence is itself a call sequence,
so this covers the state after each call.) -/
theorem mem_C1_amended (conf : MemConfig) (h1 : 1 ≤ conf.max_messages)
    (calls : List (List Char × List Char)) :
    (runCalls (initMem conf) calls).total_tokens =
      tokSum (runCalls (initMem conf) calls).messages ∧
    (runCalls (initMem conf) calls).messages.length ≤ conf.max_messages := by
  have h := runCalls_inv conf h1 calls (initMem conf) rfl rfl (by
    show (0 : Nat) ≤ conf.max_messages
    omega)
  exact ⟨h.2.1, h.2.2⟩

/-- C1 witness: six adds against `max_messages = 4`. -/
theorem mem_C1_witness :
    (1 ≤ c1conf.max_messages) ∧
    ((runCalls (initMem c1conf) c1calls).total_tokens =
      tokSum (runCalls (initMem c1conf) c1calls).messages ∧
    (runCalls (initMem c1conf) c1calls).messages.length ≤ c1conf.max_messages) :=
  ⟨by decide, mem_C1_amended c1conf (by decide) c1calls⟩

/-- C1 (counterexample).  With `max_messages = 0` (a configuration the claim
quantifies over), Python's `self.messages[-0:]` slicing keeps the whole
list, so after one `add_message` the retained count exceeds `max_messages`:
the claim as stated fails. -/
theorem mem_C1_cex :
    ¬((runCalls (initMem ⟨2000, 0, 15, defaultKeywords⟩)
        [("user".data, "hi".data)]).messages.length ≤
      (⟨2000, 0, 15, defaultKeywords⟩ : MemConfig).max_messages) := by decide

theorem mem_of_dedupeAux (x : MemMessage) :
    ∀ (l : List MemMessage) (seen : List Nat), x ∈ dedupeAux l seen → x ∈ l := by
  intro l
  induction l with
  | nil => intro seen h; cases h
  | cons m rest ih =>
    intro seen h
    unfold dedupeAux at h
    split at h
    · exact List.mem_cons_of_mem m (ih _ h)
    · rcases List.mem_cons.mp h with h | h
      · exact h ▸ List.mem_cons_self m rest
      · exact List.mem_cons_of_mem m (ih _ h)

theorem mem_of_dedupe (x : MemMessage) (l : List MemMessage) (h : x ∈ dedupe l) :
    x ∈ l := mem_of_dedupeAux x l [] h

theorem mem_of_insertByTs (x m : MemMessage) :
    ∀ l : List MemMessage, x ∈ insertByTs m l → x = m ∨ x ∈ l := by
  intro l
  induction l with
  | nil =>
    intro h
    rcases List.mem_cons.mp h with h | h
    · exact Or.inl h
    · cases h
  | cons y ys ih =>
    intro h
    unfold insertByTs at h
    split at h
    · rcases List.mem_cons.mp h with h | h
      · exact Or.inl h
      · exact Or.inr h
    · rcases List.mem_cons.mp h with h | h
      · exact Or.inr (h ▸ List.mem_cons_self y ys)
      · rcases ih h with h | h
        · exact Or.inl h
        · exact Or.inr (List.mem_cons_of_mem y h)

theorem mem_of_sortByTs (x : MemMessage) :
    ∀ l : List MemMessage, x ∈ sortByTs l → x ∈ l := by
  intro l
  induction l with
  | nil => intro h; cases h
  | cons m rest ih =>
    intro h
    rcases mem_of_insertByTs x m _ h with h | h
    · exact h ▸ List.mem_cons_self m rest
    · exact List.mem_cons_of_mem m (ih h)

theorem mem_of_popOldest (x : MemMessage) (maxT : Nat) :
    ∀ l : List MemMessage, x ∈ popOldest maxT l → x ∈ l := by
  intro l
  induction l with
  | nil => intro h; cases h
  | cons m rest ih =>
    intro h
    unfold popOldest at h
    split at h
    · exact List.mem_cons_of_mem m (ih h)
    · exact h

/-- Every message retained by the token-compression pass is important or
among the four most recent messages. -/
theorem compressContext_mem (s : MemState) (x : MemMessage)
    (h : x ∈ (compressContext s).messages) :
    x.important = true ∨ x ∈ s.messages.drop (s.messages.length - 4) := by
  have h1 : x ∈ sortByTs (dedupe
      (s.messages.filter (fun m => m.important) ++
        s.messages.drop (s.messages.length - 4))) :=
    mem_of_popOldest x _ _ h
  have h2 := mem_of_dedupe x _ (mem_of_sortByTs x _ h1)
  rcases List.mem_append.mp h2 with h3 | h3
  · exact Or.inl (List.mem_filter.mp h3).2
  · exact Or.inr h3

/-- C2.  If the token-compression pass removes an `important` turn, then no
non-important, non-recent turn remains in the retained set: every retained
non-important turn is among the four most recent messages (the pass's
candidate set is the union of the important and the recent turns, so all
non-important, non-recent turns are evicted before any important one). -/
theorem mem_C2 (s : MemState) (m m2 : MemMessage)
    (hm : m ∈ s.messages) (himp : m.important = true)
    (hrem : m ∉ (compressContext s).messages)
    (hm2 : m2 ∈ (compressContext s).messages) (hni : m2.important = false) :
    m2 ∈ s.messages.drop (s.messages.length - 4) := by
  rcases compressContext_mem s m2 hm2 with h | h
  · rw [hni] at h
    cases h
  · exact h

/-- C2 witness: the hypotheses are satisfiable (an important message is
actually removed by the pass) and the retained non-important `c2m4` is
recent. -/
theorem mem_C2_witness :
    (c2m1 ∈ c2state.messages ∧ c2m1.important = true ∧
      c2m1 ∉ (compressContext c2state).messages ∧
      c2m4 ∈ (compressContext c2state).messages ∧ c2m4.important = false) ∧
    c2m4 ∈ c2state.messages.drop (c2state.messages.length - 4) :=
  ⟨⟨by decide, by decide, by decide, by decide, by decide⟩,
    mem_C2 c2state c2m1 c2m4 (by decide) (by decide) (by decide)
      (by decide) (by decide)⟩

theorem selectFit_spec (limit : Nat) :
    ∀ (l : List MemMessage) (tc : Nat), tc ≤ limit →
    ∃ k, k ≤ l.length ∧ selectFit limit tc l = l.take k ∧
      tc + tokSum (l.take k) ≤ limit ∧
      ∀ j, j ≤ l.length → tc + tokSum (l.take j) ≤ limit → j ≤ k := by
  intro l
  induction l with
  | nil =>
    intro tc htc
    refine ⟨0, Nat.le_refl 0, rfl, ?_, fun j hj _ => hj⟩
    simpa [tokSum] using htc
  | cons m rest ih =>
    intro tc htc
    by_cases h : tc + m.tokens ≤ limit
    · obtain ⟨k, hk, he, hsum, hmax⟩ := ih (tc + m.tokens) h
      refine ⟨k + 1, by simpa using Nat.succ_le_succ hk, ?_, ?_, ?_⟩
      · show selectFit limit tc (m :: rest) = m :: rest.take k
        unfold selectFit
        rw [if_pos h, he]
      · rw [List.take_succ_cons, tokSum_cons]
        omega
      · intro j hj hsumj
        cases j with
        | zero => omega
        | succ j' =>
          rw [List.take_succ_cons, tokSum_cons] at hsumj
          exact Nat.succ_le_succ (hmax j' (by simpa using hj) (by omega))
    · refine ⟨0, Nat.zero_le _, ?_, by simpa [tokSum] using htc, ?_⟩
      · show selectFit limit tc (m :: rest) = []
        unfold selectFit
        rw [if_neg h]
      · intro j hj hsumj
        cases j with
        | zero => exact Nat.le_refl 0
        | succ j' =>
          exfalso
          rw [List.take_succ_cons, tokSum_cons] at hsumj
          omega

/-- C6 (amended).  For every memory state and every *non-zero* token limit,
`get_context` returns exactly the maximal suffix of the retained turns whose
cumulative stored token estimate stays within the limit, in chronological
order, projected to role and content only.  (A limit of `0` — like `None` —
is falsy in Python and silently falls back to the configured `max_tokens`.) -/
theorem mem_C6_amended (s : MemState) (n : Nat) (hn : n ≠ 0) :
    ∃ k, k ≤ s.messages.length ∧
      getContext s (some n) =
        (s.messages.drop (s.messages.length - k)).map (fun m => (m.role, m.content)) ∧
      tokSum (s.messages.drop (s.messages.length - k)) ≤ n ∧
      ∀ j, j ≤ s.messages.length →
        tokSum (s.messages.drop (s.messages.length - j)) ≤ n → j ≤ k := by
  obtain ⟨k, hk, he, hsum, hmax⟩ :=
    selectFit_spec n s.messages.reverse 0 (Nat.zero_le n)
  have hrel : ∀ j, (s.messages.reverse.take j).reverse =
      s.messages.drop (s.messages.length - j) := by
    intro j
    rw [← List.rtake_eq_reverse_take_reverse]
    rfl
  have htok : ∀ j, tokSum (s.messages.drop (s.messages.length - j)) =
      tokSum (s.messages.reverse.take j) := by
    intro j
    rw [← hrel j]
    unfold tokSum
    rw [List.map_reverse, List.sum_reverse]
  refine ⟨k, by simpa using hk, ?_, ?_, ?_⟩
  · show ((selectFit (if n = 0 then s.conf.max_tokens else n) 0
        s.messages.reverse).reverse).map (fun m => (m.role, m.content)) = _
    rw [if_neg hn, he, hrel k]
  · rw [htok k]
    omega
  · intro j hj hsumj
    rw [htok j] at hsumj
    exact hmax j (by simpa using hj) (by omega)

/-- C6 witness: a nonzero limit of `18` selects the maximal fitting suffix
(the last two messages). -/
theorem mem_C6_witness :
    ((18 : Nat) ≠ 0) ∧
    (∃ k, k ≤ c6state.messages.length ∧
      getContext c6state (some 18) =
        (c6state.messages.drop (c6state.messages.length - k)).map
          (fun m => (m.role, m.content)) ∧
      tokSum (c6state.messages.drop (c6state.messages.length - k)) ≤ 18 ∧
      ∀ j, j ≤ c6state.messages.length →
        tokSum (c6state.messages.drop (c6state.messages.length - j)) ≤ 18 → j ≤ k) :=
  ⟨by decide, mem_C6_amended c6state 18 (by decide)⟩

/-- C6 (counterexample).  At `tokenLimit = 0` the claim fails: `0` is falsy,
so `get_context(0)` uses `self.max_tokens` instead and returns a non-empty
context whose token sum (1) exceeds the requested limit `0`, while the only
suffix within limit `0` is the empty one. -/
theorem mem_C6_cex :
    getContext
      (⟨⟨2000, 10, 15, defaultKeywords⟩,
        [⟨"user".data, "hello".data, 0, 1, false, false⟩], 1, 1⟩ : MemState)
      (some 0) = [("user".data, "hello".data)] ∧
    tokSum [(⟨"user".data, "hello".data, 0, 1, false, false⟩ : MemMessage)] = 1 := by
  refine ⟨by decide, by decide⟩

end Memory
